import Mathlib

/-!
Verification development for the ELR mileage module (`elr_mileages.py`) of
`railwaycodes-utils`.  The Python source is shallowly embedded: strings are
lists of characters, pandas objects become explicit structures, exceptions
become an `Except` monad, and the regular expressions used by the source are
run by a small backtracking matcher over transliterated pattern ASTs.
-/

namespace ElrMileages

/-- Text is modelled as a list of characters (Python `str`). -/
abbrev Str := List Char

/-- Conversion from a Lean string literal to the embedded text type. -/
def str (s : String) : Str := s.data

/-- Python exceptions that the embedded code can raise. -/
inductive PyErr
  | attributeError
  | typeError
  | keyError
  | valueError
  deriving DecidableEq, Repr

/-- Decidable equality of `Except` values, for evaluating the embedded
functions inside decidable statements. -/
instance {ε α : Type _} [DecidableEq ε] [DecidableEq α] : DecidableEq (Except ε α) := fun x y =>
  match x, y with
  | .error e1, .error e2 =>
      match decEq e1 e2 with
      | .isTrue h => .isTrue (congrArg Except.error h)
      | .isFalse h => .isFalse fun he => h (by injection he)
  | .error _, .ok _ => .isFalse fun he => Except.noConfusion he
  | .ok _, .error _ => .isFalse fun he => Except.noConfusion he
  | .ok a1, .ok a2 =>
      match decEq a1 a2 with
      | .isTrue h => .isTrue (congrArg Except.ok h)
      | .isFalse h => .isFalse fun he => h (by injection he)

/-- Python `needle in hay` on strings: substring containment. -/
def pyIn (needle hay : Str) : Bool :=
  match hay with
  | [] => needle = []
  | _ :: cs => needle.isPrefixOf hay || pyIn needle cs

/-- Python `s.startswith(p)`. -/
def pyStartswith (p s : Str) : Bool := p.isPrefixOf s

/-- Python `s.endswith(p)`. -/
def pyEndswith (p s : Str) : Bool := p.reverse.isPrefixOf s.reverse

/-- Python `s.find(c)` for a single character: index of the first occurrence,
`-1` if absent (encoded as `none`). -/
def pyFindChar (s : Str) (c : Char) : Option Nat :=
  match s with
  | [] => none
  | d :: ds => if d = c then some 0 else (pyFindChar ds c).map (· + 1)

/-- Python slice `s[a:b]` with nonnegative bounds. -/
def pySlice (s : Str) (a b : Nat) : Str := (s.take b).drop a

/-- Python `s.lstrip(chars)`: drop leading characters belonging to the set. -/
def pyLstripSet (set : List Char) (s : Str) : Str :=
  s.dropWhile (fun c => set.contains c)

/-- Python `s.rstrip(chars)`: drop trailing characters belonging to the set. -/
def pyRstripSet (set : List Char) (s : Str) : Str :=
  (s.reverse.dropWhile (fun c => set.contains c)).reverse

/-- Python `s.strip(' ')`. -/
def pyStripSpace (s : Str) : Str := pyRstripSet [' '] (pyLstripSet [' '] s)

/-- Worker for `pySplit`, with fuel bounding the number of scanned positions. -/
def pySplitGo (sep : Str) : Nat → Str → Str → List Str
  | 0, s, acc => [acc.reverse ++ s]
  | _ + 1, [], acc => [acc.reverse]
  | f + 1, c :: cs, acc =>
      if sep.isPrefixOf (c :: cs) then
        acc.reverse :: pySplitGo sep f ((c :: cs).drop sep.length) []
      else
        pySplitGo sep f cs (c :: acc)

/-- Python `s.split(sep)` for a nonempty separator. -/
def pySplit (sep s : Str) : List Str :=
  if sep = [] then [s] else pySplitGo sep (s.length + 1) s []

/-- Worker for `pyReplace`, with fuel bounding the number of scanned positions. -/
def pyReplaceGo (old new : Str) : Nat → Str → Str
  | 0, s => s
  | _ + 1, [] => []
  | f + 1, c :: cs =>
      if old.isPrefixOf (c :: cs) then
        new ++ pyReplaceGo old new f ((c :: cs).drop old.length)
      else
        c :: pyReplaceGo old new f cs

/-- Python `s.replace(old, new)` for a nonempty `old`: replace all occurrences. -/
def pyReplace (old new s : Str) : Str :=
  if old = [] then s else pyReplaceGo old new (s.length + 1) s

/-- Python `sep.join(parts)`. -/
def pyJoin (sep : Str) (parts : List Str) : Str :=
  match parts with
  | [] => []
  | [p] => p
  | p :: ps => p ++ sep ++ pyJoin sep ps

/-! ### A small backtracking regex matcher

The Python module uses `re` with a handful of fixed patterns.  They are
transliterated into the following AST and executed by a backtracking matcher
that enumerates candidate matches in the same greedy order as Python's `re`
(longest repetition first, optional group present first, alternatives in
written order).  The matcher carries the text to the left of the current
position so that fixed-width lookbehind can be evaluated. -/

/-- A single-character regex class. -/
inductive Cls
  | dot                       -- `.` : any character except newline
  | word                      -- `\w`
  | digit                     -- `\d`
  | chars (cs : List Char)    -- `[...]` over an explicit character list
  deriving Repr

/-- Does character `c` belong to class `k`? -/
def clsMatch (k : Cls) (c : Char) : Bool :=
  match k with
  | .dot => c ≠ '\n'
  | .word => c.isAlphanum || c = '_'
  | .digit => c.isDigit
  | .chars cs => cs.contains c

/-- Regex AST tokens; a pattern is a `List Tok` run in sequence. -/
inductive Tok
  | one (k : Cls)                  -- single class occurrence
  | star (k : Cls)                 -- `k*`
  | plus (k : Cls)                 -- `k+`
  | lit (s : Str)                  -- literal text
  | opt (p : List Tok)             -- `(p)?`
  | alt (ps : List (List Tok))     -- `(p1|p2|...)`
  | ahead (p : List Tok)           -- `(?=p)` lookahead
  | behind (ks : List Cls)         -- `(?<=...)` fixed-width class lookbehind
  | eos                            -- `$`
  deriving Repr

/-- Longest run of class `k` characters at the head of `s`. -/
def clsRun (k : Cls) (s : Str) : Nat :=
  match s with
  | [] => 0
  | c :: cs => if clsMatch k c then clsRun k cs + 1 else 0

/-- Check a fixed-width class lookbehind against the reversed left context. -/
def behindOk (ks : List Cls) (left : Str) : Bool :=
  decide (ks.length ≤ left.length) &&
    ((ks.reverse.zip left).all fun kc => clsMatch kc.1 kc.2)

/-- All candidate ways (in Python's backtracking order) for pattern `ts` to
match a prefix of `rest`.  `pre` is the reversed text to the left of the match
start (for lookbehind), `accRev` the reversed text consumed so far by this
match.  Each candidate is `(accRev', rest')`.  Repetitions try the longest
count first, optional groups try the present alternative first, and
alternation branches are tried in written order — Python's order.  `fuel`
bounds the depth of sequential calls; one unit is spent per token position
visited along a path, so any fuel above twice the pattern size is enough. -/
def matchSeq : Nat → List Tok → Str → Str → Str → List (Str × Str)
  | 0, _, _, _, _ => []
  | _ + 1, [], _, accRev, rest => [(accRev, rest)]
  | f + 1, t :: ts, pre, accRev, rest =>
      match t with
      | .one k =>
          match rest with
          | [] => []
          | c :: cs =>
              if clsMatch k c then matchSeq f ts pre (c :: accRev) cs else []
      | .lit l =>
          if l.isPrefixOf rest then
            matchSeq f ts pre ((rest.take l.length).reverse ++ accRev) (rest.drop l.length)
          else []
      | .star k =>
          ((List.range (clsRun k rest + 1)).reverse).flatMap fun n =>
            matchSeq f ts pre ((rest.take n).reverse ++ accRev) (rest.drop n)
      | .plus k =>
          (((List.range (clsRun k rest + 1)).reverse).filter (0 < ·)).flatMap fun n =>
            matchSeq f ts pre ((rest.take n).reverse ++ accRev) (rest.drop n)
      | .opt p =>
          ((matchSeq f p pre accRev rest).flatMap fun pr =>
            matchSeq f ts pre pr.1 pr.2) ++ matchSeq f ts pre accRev rest
      | .alt ps =>
          ps.flatMap fun p =>
            (matchSeq f p pre accRev rest).flatMap fun pr => matchSeq f ts pre pr.1 pr.2
      | .ahead p =>
          if matchSeq f p pre accRev rest ≠ [] then matchSeq f ts pre accRev rest
          else []
      | .behind ks =>
          if behindOk ks (accRev ++ pre) then matchSeq f ts pre accRev rest else []
      | .eos => if rest = [] then matchSeq f ts pre accRev rest else []

/-- Matcher fuel.  One fuel unit is spent per token position visited along a
sequential path, so fuel strictly above twice the token count of the pattern
(counting the tokens inside groups) is sufficient.  Every pattern
transliterated in this file has fewer than 31 tokens, so 64 is ample. -/
def patFuel (_pat : List Tok) : Nat := 64

/-- Python `re.match(pat, s)` as a boolean: does `pat` match a prefix of `s`? -/
def reMatchB (pat : List Tok) (s : Str) : Bool :=
  matchSeq (patFuel pat) pat [] [] s ≠ []

/-- Python `re.match(pat, s).group()`: text of the match, `none` if no match. -/
def reMatchText (pat : List Tok) (s : Str) : Option Str :=
  match matchSeq (patFuel pat) pat [] [] s with
  | [] => none
  | (accRev, _) :: _ => some accRev.reverse

/-- Worker for `reSearch`: try each start position left to right, moving the
scanned character into the left context. -/
def reSearchGo (pat : List Tok) (pre s : Str) : Option Str :=
  match matchSeq (patFuel pat) pat pre [] s with
  | (accRev, _) :: _ => some accRev.reverse
  | [] =>
      match s with
      | [] => none
      | c :: cs => reSearchGo pat (c :: pre) cs

/-- Python `re.search(pat, s).group()`: text of the leftmost match. -/
def reSearch (pat : List Tok) (s : Str) : Option Str := reSearchGo pat [] s

/-- Worker for `reFindIter`; fuel bounds the number of scanned positions. -/
def reFindIterGo (pat : List Tok) : Nat → Str → Str → List Str
  | 0, _, _ => []
  | _ + 1, _, [] => []
  | f + 1, pre, c :: cs =>
      match matchSeq (patFuel pat) pat pre [] (c :: cs) with
      | (accRev, rest) :: _ =>
          if accRev = [] then reFindIterGo pat f (c :: pre) cs
          else accRev.reverse :: reFindIterGo pat f (accRev ++ pre) rest
      | [] => reFindIterGo pat f (c :: pre) cs

/-- Python `re.finditer(pat, s)`: texts of all non-overlapping matches, left to
right. -/
def reFindIter (pat : List Tok) (s : Str) : List Str :=
  reFindIterGo pat (s.length + 1) [] s

/-! ### The concrete patterns of `elr_mileages.py`, transliterated. -/

/-- `[A-Z]`. -/
def upperCls : Cls := .chars "ABCDEFGHIJKLMNOPQRSTUVWXYZ".data

/-- `[ A-Z0-9]`. -/
def spaceUpperDigitCls : Cls := .chars (' ' :: "ABCDEFGHIJKLMNOPQRSTUVWXYZ0123456789".data)

/-- ` \(\d+\.\d+\)` — a parenthesised decimal preceded by a space. -/
def parenDecimalToks : List Tok :=
  [.lit (str " ("), .plus .digit, .lit (str "."), .plus .digit, .lit (str ")")]

/-- Line 132: `\w+.*( \(\d+\.\d+\))?(/| and )\w+ with[ A-Z0-9]( \(\d+\.\d+\))?`. -/
def patDetect : List Tok :=
  [.plus .word, .star .dot, .opt parenDecimalToks,
   .alt [[.lit (str "/")], [.lit (str " and ")]],
   .plus .word, .lit (str " with"), .one spaceUpperDigitCls, .opt parenDecimalToks]

/-- Line 133: ` with \w+( \(\d+\.\d+\))?`. -/
def patWithConn : List Tok :=
  [.lit (str " with "), .plus .word, .opt parenDecimalToks]

/-- Line 340: `[A-Z]{3}(0-9)?$` — note the source writes `(0-9)`, a literal
two-character group, not the character class `[0-9]`. -/
def patLinkShape : List Tok :=
  [.one upperCls, .one upperCls, .one upperCls, .opt [.lit (str "0-9")], .eos]

/-- Lines 311/336/358: `\w+(?= \(\d+\.\d+\))`. -/
def patWordInline : List Tok :=
  [.plus .word, .ahead parenDecimalToks]

/-- Lines 312/360: `(?<=\w \()\d+\.\d+`. -/
def patInlineMileage : List Tok :=
  [.behind [.word, .chars [' '], .chars ['(']],
   .plus .digit, .lit (str "."), .plus .digit]

/-! ### `parse_mileage` (lines 92-121)

A pandas column is modelled as a `series` of scalar cells tagged with whether
pandas inferred the `float64` dtype for it (pandas does so exactly when every
cell is numeric or NaN).  Iterating a `float64` series yields numpy scalars,
which carry a `.dtype`; iterating an `object` series yields plain Python
strings and floats, which do not.  Line 119 applies `parse_mileage` itself to
every cell of the column, so the recursive behaviour on scalars is embedded
by `parse_mileage_scalar`, the restriction of the function to scalar
arguments (on which it makes no further recursive call). -/

/-- A scalar cell of a pandas column. -/
inductive PyScalar
  | npFloat (isNan : Bool) (val : ℚ)   -- numpy float64 scalar; has a `.dtype`
  | pyFloatNan                          -- plain Python `nan`; no `.dtype`
  | pyStr (s : Str)
  deriving DecidableEq, Repr

/-- Argument type of `parse_mileage`: a pandas Series or (after line 119 feeds
cells back into the function) a scalar. -/
inductive PyObj
  | series (isFloat64 : Bool) (cells : List PyScalar)
  | scalar (v : PyScalar)
  deriving DecidableEq, Repr

/-- The DataFrame built at line 121.  Its `Mileage` column holds the results
of the recursive calls of line 119; a recursive call on a scalar never
returns normally (see `parse_mileage_scalar`, whose result type is therefore
`Empty`), so in any frame the function actually returns this column is the
empty list. -/
structure PMFrame where
  mileage : List Empty
  note : List Str
  deriving DecidableEq, Repr

/-- `pd.isnull` on a scalar cell. -/
def pdIsNull : PyScalar → Bool
  | .npFloat isNan _ => isNan
  | .pyFloatNan => true
  | .pyStr _ => false

/-- One iteration of the classification loop of lines 102-117 on a cell of an
`object`-dtype column: returns the normalized cell and its note.  A non-null
float cell reaches `m.startswith('(')` at line 106 and raises
`AttributeError`. -/
def classifyCell (m : PyScalar) : Except PyErr (PyScalar × Str) :=
  if pdIsNull m then .ok (m, str "Unknown")
  else
    match m with
    | .pyStr s =>
        if pyStartswith (str "(") s && pyEndswith (str ")") s then
          -- line 107: `m[m.find('(') + 1:m.find(')')]`
          let a := (pyFindChar s '(').getD s.length + 1
          let b := (pyFindChar s ')').getD s.length
          .ok (.pyStr (pySlice s a b), str "Reference")
        else if pyStartswith (str "~") s then
          .ok (.pyStr (s.drop 1), str "Approximate")
        else
          .ok (.pyStr (pyStripSpace s), str "")
    | _ => .error .attributeError

/-- The classification loop of lines 102-117 over a whole `object` column. -/
def classifyAll : List PyScalar → Except PyErr (List PyScalar × List Str)
  | [] => .ok ([], [])
  | m :: ms => do
      let (v, note) ← classifyCell m
      let (vs, notes) ← classifyAll ms
      .ok (v :: vs, note :: notes)

/-- `parse_mileage` applied to a scalar, as happens at line 119.  A numpy
float scalar passes the `.dtype == float64` test of line 97 and then fails at
`len(temp_mileage)` (line 99) with `TypeError`; a plain string or float has no
`.dtype` and line 97 itself raises `AttributeError`.  No deeper recursion
happens on scalars, and no scalar call ever returns normally, whence the
result type `Empty`. -/
def parse_mileage_scalar : PyScalar → Except PyErr Empty
  | .npFloat _ _ => .error .typeError
  | .pyFloatNan => .error .attributeError
  | .pyStr _ => .error .attributeError

/-- Line 119 applied to the intermediate cell list. -/
def parseCells : List PyScalar → Except PyErr (List Empty)
  | [] => .ok []
  | m :: ms => do
      let a ← parse_mileage_scalar m
      let rest ← parseCells ms
      .ok (a :: rest)

/-- `parse_mileage` (lines 92-121). -/
def parse_mileage : PyObj → Except PyErr PMFrame
  | .scalar v => (parse_mileage_scalar v).map Empty.elim
  | .series isFloat64 cells => do
      let tn ←
        if isFloat64 then
          pure (cells, List.replicate cells.length (str ""))
        else
          classifyAll cells
      let vals ← parseCells tn.1
      pure ⟨vals, tn.2⟩

/-! ### `parse_node_and_connection` (lines 125-173) -/

/-- `preprocess_node` (lines 131-141). -/
def preprocess_node (node_x : Str) : Str :=
  if reMatchB patDetect node_x then
    let init_conn_info := reFindIter patWithConn node_x
    let node_info :=
      if pyIn (str "/") node_x then
        ((pySplit (str "/") node_x).zip init_conn_info).map fun yc =>
          pyReplace yc.2 (str "") yc.1
      else
        ((pySplit (str " and ") node_x).zip init_conn_info).map fun yc =>
          pyReplace yc.2 (str "") yc.1
    let conn_info := init_conn_info.map fun ci => pyReplace (str " with ") (str "") ci
    pyJoin (str "/") node_info ++ str " with " ++ pyJoin (str " and ") conn_info
  else node_x

/-- The three fixed textual replacements of lines 145-147, applied in source
order. -/
def fixupReplacements (n : Str) : Str :=
  pyReplace (str " (0.37 long)") (str "")
    (pyReplace (str " with curve to") (str " with")
      (pyReplace (str " with Freightliner terminal") (str " & Freightliner Terminal") n))

/-- Greatest row length of a list of rows. -/
def maxLenL (l : List (List α)) : Nat :=
  l.foldr (fun r m => Nat.max r.length m) 0

/-- Lines 145-148: preprocess, normalize, split on `" with "` and build the
two-column frame `['Node', 'Connection']`.  pandas pads ragged nested lists
with `None` up to the widest row, and raises `ValueError` when the widest row
width disagrees with the number of column labels (2). -/
def mk_temp_node (node : List Str) : Except PyErr (List (Str × Option Str)) :=
  let rows := node.map fun n =>
    pySplit (str " with ") (fixupReplacements (preprocess_node n))
  if rows = [] then .ok []
  else if maxLenL rows = 2 then
    .ok (rows.map fun r => (r.headD [], r.get? 1))
  else .error .valueError

/-- Lines 151-158: split one `Connection` cell on `" and "`, grouping the
first two elements and the remainder when more than two result (`x = 2`); a
null cell gives the singleton `[None]`. -/
def splitConnCell (c : Option Str) : List (Option Str) :=
  match c with
  | some s =>
      let cnode := pySplit (str " and ") s
      if 2 < cnode.length then
        [some (pyJoin (str " and ") (cnode.take 2)),
         some (pyJoin (str " and ") (cnode.drop 2))]
      else cnode.map some
  | none => [none]

/-- Lines 149-158 over the whole `Connection` column. -/
def mk_conn_node_list (conns : List (Option Str)) : List (List (Option Str)) :=
  conns.map splitConnCell

/-- Line 165 applied to one element: `x.rstrip(',').lstrip('later ').split(' and ')`.
A `None` element would raise `AttributeError`. -/
def fanoutStep1 (x : Option Str) : Except PyErr (List (Option Str)) :=
  match x with
  | none => .error .attributeError
  | some s =>
      .ok ((pySplit (str " and ")
        (pyLstripSet (str "later ") (pyRstripSet [','] s))).map some)

/-- Line 167 applied to one element: `x.split(', ')`. -/
def fanoutStep2 (x : Option Str) : Except PyErr (List (Option Str)) :=
  match x with
  | none => .error .attributeError
  | some s => .ok ((pySplit (str ", ") s).map some)

/-- Effectful map over a list in the `Except` monad, failing at the first
error (the order in which a Python comprehension evaluates and raises). -/
def exMapM {α β : Type _} (g : α → Except PyErr β) : List α → Except PyErr (List β)
  | [] => .ok []
  | x :: xs => do
      let y ← g x
      let ys ← exMapM g xs
      .ok (y :: ys)

/-- Lines 165-167: flatten one multi-connection row. -/
def fanoutRow (row : List (Option Str)) : Except PyErr (List (Option Str)) := do
  let r1 ← exMapM fanoutStep1 row
  let r2 ← exMapM fanoutStep2 r1.flatten
  pure r2.flatten

/-- Line 164: the index list `[conn_node_list.index(c) for c in conn_node_list
if len(c) > 1]`, computed on the list as it stands before the loop runs; note
`list.index` returns the index of the first *equal* element. -/
def fanoutIdxs (cl : List (List (Option Str))) : List Nat :=
  (cl.filter fun c => 1 < c.length).map fun c => cl.indexOf c

/-- The mutation loop of lines 164-167: each listed index is replaced by its
flattened row, reading the list as already mutated by earlier iterations. -/
def fanoutApply : List Nat → List (List (Option Str)) → Except PyErr (List (List (Option Str)))
  | [], acc => .ok acc
  | i :: is, acc =>
      match acc.get? i with
      | some row => do
          let row2 ← fanoutRow row
          fanoutApply is (acc.set i row2)
      | none => .error .keyError

/-- Line 160: is every row's connection list a singleton? -/
def allSingleton (cl : List (List (Option Str))) : Bool :=
  cl.all fun c => c.length == 1

/-- Column label `Connection<n>`. -/
def connName (n : Nat) : Str := str "Connection" ++ (Nat.repr n).data

/-- Result of `parse_node_and_connection`: the `Node` column joined with the
connection columns (line 173). -/
structure PNC where
  node : List Str
  connNames : List Str
  connRows : List (List (Option Str))
  deriving DecidableEq, Repr

/-- `parse_node_and_connection` (lines 125-173). -/
def parse_node_and_connection (node : List Str) : Except PyErr PNC := do
  let pairs ← mk_temp_node node
  let cl := mk_conn_node_list (pairs.map Prod.snd)
  if allSingleton cl then
    -- line 161: columns `['Connection1', 'Connection2']`, second all null
    pure ⟨pairs.map Prod.fst, [connName 1, connName 2], cl.map fun c => c ++ [none]⟩
  else do
    let fl ← fanoutApply (fanoutIdxs cl) cl
    let n := maxLenL fl
    pure ⟨pairs.map Prod.fst, (List.range n).map fun k => connName (k + 1),
          fl.map fun c => c ++ List.replicate (n - c.length) none⟩

/-- The connection lists of a table after the branch of lines 160-167 has
run (before null-padding): the all-singleton branch leaves them as split, the
other branch flattens the listed rows. -/
def connListsFinal (node : List Str) : Except PyErr (List (List (Option Str))) := do
  let pairs ← mk_temp_node node
  let cl := mk_conn_node_list (pairs.map Prod.snd)
  if allSingleton cl then pure cl else fanoutApply (fanoutIdxs cl) cl

/-! ### `parse_mileage_node_and_connection` (lines 177-186) and
`parse_mileage_file` (lines 190-202) -/

/-- The joined structured table of line 185. -/
structure AssembledTable where
  mileage : List Empty
  mileageNote : List Str
  node : List (Option Str)
  connNames : List Str
  connRows : List (List (Option Str))
  deriving DecidableEq, Repr

/-- The pandas left join of line 185, seen from the right side: the result
keeps the left (mileage) frame's row labels `0..leftRows-1`; each row takes
the node/connection values at its label when the right table has them and
`NaN` (here `none`) otherwise; surplus right rows are dropped.  No error is
raised on a row-count mismatch.  Returns (node column, connection rows). -/
def pdJoin (leftRows : Nat) (p : PNC) :
    List (Option Str) × List (List (Option Str)) :=
  ((List.range leftRows).map fun i => p.node.get? i,
   (List.range leftRows).map fun i =>
     (p.connRows.get? i).getD (List.replicate p.connNames.length none))

/-- Line 185: `parsed_mileage.join(parsed_node_and_connection)`. -/
def joinTables (pm : PMFrame) (p : PNC) : AssembledTable :=
  { mileage := pm.mileage
    mileageNote := pm.note
    node := (pdJoin pm.mileage.length p).1
    connNames := p.connNames
    connRows := (pdJoin pm.mileage.length p).2 }

/-- `parse_mileage_node_and_connection` (lines 177-186): `dat.iloc[:, 0]` is
the mileage column, `dat.iloc[:, 1]` the node column. -/
def parse_mileage_node_and_connection (mileageCol : PyObj) (nodeCol : List Str) :
    Except PyErr AssembledTable := do
  let pm ← parse_mileage mileageCol
  let pnc ← parse_node_and_connection nodeCol
  pure (joinTables pm pnc)

/-- A value of the mileage-file mapping: the ELR key holds a raw or parsed
table or a label-keyed family of them; `'Line'`/`'Note'` hold text.  Applying
the parser to an already-parsed frame is outside this embedding and is mapped
to an error. -/
inductive MFVal
  | raw (mileageCol : PyObj) (nodeCol : List Str)
  | rawSections (secs : List (Str × (PyObj × List Str)))
  | parsed (t : AssembledTable)
  | parsedSections (secs : List (Str × AssembledTable))
  | txt (v : Option Str)
  deriving DecidableEq, Repr

/-- Python `d[k]` on the mapping (first matching key; dict keys are unique). -/
def lookupKey (k : Str) : List (Str × MFVal) → Option MFVal
  | [] => none
  | kv :: rest => if kv.1 = k then some kv.2 else lookupKey k rest

/-- Python `d[k] = v` on the mapping: replace in place, keys and order kept. -/
def setKey (k : Str) (v : MFVal) (mf : List (Str × MFVal)) : List (Str × MFVal) :=
  mf.map fun kv => if kv.1 = k then (kv.1, v) else kv

/-- Lines 197-200 of `parse_mileage_file`: parse the fetched entry — per
labelled section when it is a dict of more than one section; a dict of at
most one section falls into the DataFrame branch, where `dict.iloc` raises
`AttributeError`, as do the text entries. -/
def parseEntry (dat : MFVal) : Except PyErr MFVal :=
  match dat with
  | .rawSections secs =>
      if 1 < secs.length then do
        let ps ← exMapM (fun hv => do
          let t ← parse_mileage_node_and_connection hv.2.1 hv.2.2
          pure (hv.1, t)) secs
        pure (MFVal.parsedSections ps)
      else .error PyErr.attributeError
  | .raw m nc => do
      let t ← parse_mileage_node_and_connection m nc
      pure (MFVal.parsed t)
  | .txt _ => .error PyErr.attributeError
  | .parsed _ => .error PyErr.attributeError
  | .parsedSections _ => .error PyErr.attributeError

/-- `parse_mileage_file` (lines 190-202): read the entry at key `elr`
(`KeyError` when absent), parse it, store the result back at the same key and
return the same mapping. -/
def parse_mileage_file (mf : List (Str × MFVal)) (elr : Str) :
    Except PyErr (List (Str × MFVal)) :=
  match lookupKey elr mf with
  | none => .error PyErr.keyError
  | some dat => do
      let newDat ← parseEntry dat
      pure (setKey elr newDat mf)

/-! ### `get_conn_end_start_mileages` (lines 289-378)

The resolver consumes already-structured tables through `get_mileage_file`;
it is embedded over a store mapping an ELR to the dictionary that call
returns (or `None` when scraping failed).  Cells are dynamic Python values.
Resolver-level exceptions propagate, except inside the link-probing `try`
block of lines 341-367, which swallows `TypeError` and `AttributeError`
while keeping any assignments already made. -/

/-- A Python value held in a cell of a structured table (or in the resolver's
result variables): `None`, `NaN`, a string, or a number (represented as an
exact, not necessarily reduced, fraction `num / den`). -/
inductive PyV
  | vnone
  | vnan
  | vstr (s : Str)
  | vnum (num : Int) (den : Nat)
  deriving DecidableEq, Repr

/-- A structured table as the resolver reads it: named columns of cells. -/
structure GDF where
  cols : List (Str × List PyV)
  deriving DecidableEq, Repr

/-- Column labels of a table. -/
def GDF.colNames (f : GDF) : List Str := f.cols.map Prod.fst

/-- First-match association-list lookup (Python `d[k]` / `df[c]`). -/
def lookupA {α : Type _} (k : Str) : List (Str × α) → Option α
  | [] => none
  | kv :: rest => if kv.1 = k then some kv.2 else lookupA k rest

/-- The value under one key of the dictionary returned by `get_mileage_file`:
the ELR key holds a DataFrame or a dict of labelled sections; `'Line'` and
`'Note'` hold text. -/
inductive RVal
  | rdf (f : GDF)
  | rsections (secs : List (Str × GDF))
  | rtxt (v : PyV)
  deriving DecidableEq, Repr

/-- The mileage-file store: what `get_mileage_file(elr, update)` returns for
each ELR (`none` models the `None` returned after a failed scrape). -/
abbrev Store := Str → Option (List (Str × RVal))

/-- `re.match('^Usual|^New', k)` (lines 299/319/346). -/
def usualNew (k : Str) : Bool :=
  pyStartswith (str "Usual") k || pyStartswith (str "New") k

/-- The object currently bound to the file variable while the
section-selection loop runs. -/
inductive SectObj
  | sdict (secs : List (Str × GDF))
  | sframe (f : GDF)
  | sseries
  deriving DecidableEq, Repr

/-- Lines 297-300 (also 317-320, 344-347): `for k in file.keys(): if
re.match('^Usual|^New', k): file = file[k]`.  The iterator ranges over the
original dict's keys, so after a first reassignment the variable holds a
DataFrame; a second matching key then indexes the frame (yielding a column
Series when the label happens to be a column, else `KeyError`), and a third
would index that Series by a string label (`KeyError`). -/
def selectLoop : List (Str × GDF) → SectObj → Except PyErr SectObj
  | [], st => .ok st
  | (k, d) :: rest, st =>
      if usualNew k then
        match st with
        | .sdict _ => selectLoop rest (.sframe d)
        | .sframe f =>
            if f.colNames.contains k then selectLoop rest .sseries
            else .error .keyError
        | .sseries => .error .keyError
      else selectLoop rest st

/-- Reduce a fetched entry to a DataFrame as lines 296-302 do; `.columns` on
a dict, Series or string raises `AttributeError`. -/
def resolveTable (e : RVal) : Except PyErr GDF := do
  match e with
  | .rdf f => .ok f
  | .rsections secs =>
      match ← selectLoop secs (.sdict secs) with
      | .sframe f => .ok f
      | .sdict _ => .error .attributeError
      | .sseries => .error .attributeError
  | .rtxt _ => .error .attributeError

/-- `get_mileage_file(elr, update)[elr]` (lines 296/316/342): indexing `None`
raises `TypeError`; a missing key raises `KeyError`. -/
def getFileEntry (store : Store) (elr : Str) : Except PyErr RVal :=
  match store elr with
  | none => .error .typeError
  | some d =>
      match lookupA elr d with
      | none => .error .keyError
      | some e => .ok e

/-- `[c for c in file.columns if re.match('^Connection', c)]` (lines
302/322/349). -/
def connCols (f : GDF) : List Str :=
  f.colNames.filter fun c => pyStartswith (str "Connection") c

/-- `.dropna()` keeping the original row labels (lines 307/324/351): pandas
drops both `NaN` and `None`. -/
def dropna (col : List PyV) : List (Nat × PyV) :=
  col.enum.filter fun iv => iv.2 != PyV.vnan && iv.2 != PyV.vnone

/-- `file.Mileage.loc[i]` (lines 310/327/354/362): attribute access to the
`Mileage` column (`AttributeError` when absent) then label lookup on the
range index (`KeyError` when out of range). -/
def locMileage (f : GDF) (i : Nat) : Except PyErr PyV :=
  match lookupA (str "Mileage") f.cols with
  | none => .error .attributeError
  | some col =>
      match col.get? i with
      | none => .error .keyError
      | some v => .ok v

/-- Python `elr in cell` (lines 309/326/353/357): substring test on a string
cell; `in` against `None` or a float raises `TypeError`. -/
def cellContains (needle : Str) (cell : PyV) : Except PyErr Bool :=
  match cell with
  | .vstr s => .ok (pyIn needle s)
  | _ => .error .typeError

/-- Decimal value of a digit string. -/
def strToNatD (s : Str) : Nat :=
  s.foldl (fun a c => a * 10 + (c.toNat - '0'.toNat)) 0

/-- Modelled from the spec: `miles_chains_to_mileage` is imported from
`utils`, which is not part of this repository snapshot.  Spec §6:
"`miles_chains_to_decimal(text) -> decimal`: converts a 'miles.chains'
formatted literal to decimal miles"; a mile is 80 chains. -/
def miles_chains_to_mileage (t : Str) : PyV :=
  match pySplit (str ".") t with
  | [m, c] => .vnum (strToNatD m * 80 + strToNatD c) 80
  | [m] => .vnum (strToNatD m) 1
  | _ => .vnum 0 1

/-- Line 340: `re.match('[A-Z]{3}(0-9)?$', link_elr)` — the guard deciding
whether a link candidate's table is opened at all. -/
def linkShapeOk (s : Str) : Bool := reMatchB patLinkShape s

/-- Lines 325-328: scan one end-table column's non-null cells for the first
one containing `start_elr`; take that row's mileage and stop. -/
def endRowScan (start_elr : Str) (f : GDF) : List (Nat × PyV) → Except PyErr PyV
  | [] => .ok .vnone
  | (j, v) :: rest => do
      if ← cellContains start_elr v then locMileage f j
      else endRowScan start_elr f rest

/-- Lines 322-332: scan the end table's connection columns in order; stop at
the first column that sets `end_conn_mileage` to a non-`None` value
(`start_conn_mileage` is already non-`None` when this scan runs). -/
def endColScan (start_elr : Str) (f : GDF) : List Str → Except PyErr PyV
  | [] => .ok .vnone
  | c :: cs => do
      let col ← match lookupA c f.cols with
        | none => .error PyErr.keyError
        | some col => pure col
      let e2 ← endRowScan start_elr f (dropna col)
      if e2 = .vnone then endColScan start_elr f cs else .ok e2

/-- Lines 352-355: first link-table loop — first non-null cell containing
`start_elr` sets `start_conn_mileage` from that row and breaks.  The second
component reports an exception raised mid-loop (state so far kept). -/
def linkLoop1 (start_elr : Str) (f : GDF) (s : PyV) :
    List (Nat × PyV) → PyV × Option PyErr
  | [] => (s, none)
  | (l, v) :: rest =>
      match cellContains start_elr v with
      | .error ex => (s, some ex)
      | .ok true =>
          match locMileage f l with
          | .error ex => (s, some ex)
          | .ok m => (m, none)
      | .ok false => linkLoop1 start_elr f s rest

/-- Lines 356-363: second link-table loop — first non-null cell containing
`end_elr` sets `end_conn_mileage` (inline parenthesised mileage if the cell
carries one, the row's mileage if the cell equals `end_elr`, otherwise
nothing) and breaks. -/
def linkLoop2 (end_elr : Str) (f : GDF) (e : PyV) :
    List (Nat × PyV) → PyV × Option PyErr
  | [] => (e, none)
  | (l, v) :: rest =>
      match cellContains end_elr v with
      | .error ex => (e, some ex)
      | .ok true =>
          match v with
          | .vstr sv =>
              if reMatchB patWordInline sv then
                match reSearch patInlineMileage sv with
                | some t => (miles_chains_to_mileage t, none)
                | none => (e, some .attributeError)
              else if sv = end_elr then
                match locMileage f l with
                | .error ex => (e, some ex)
                | .ok m => (m, none)
              else (e, none)
          | _ => (e, none)
      | .ok false => linkLoop2 end_elr f e rest

/-- Lines 350-365: the link table's column loop, stopping once both mileages
are non-`None`. -/
def linkColScan (start_elr end_elr : Str) (f : GDF) (s e : PyV) :
    List Str → PyV × PyV × Option PyErr
  | [] => (s, e, none)
  | c :: cs =>
      match lookupA c f.cols with
      | none => (s, e, some .keyError)
      | some col =>
          let rows := dropna col
          match linkLoop1 start_elr f s rows with
          | (s1, some ex) => (s1, e, some ex)
          | (s1, none) =>
              match linkLoop2 end_elr f e rows with
              | (e1, some ex) => (s1, e1, some ex)
              | (e1, none) =>
                  if s1 ≠ .vnone ∧ e1 ≠ .vnone then (s1, e1, none)
                  else linkColScan start_elr end_elr f s1 e1 cs

/-- Lines 334-369: the whole link-candidate block.  The candidate token is
the first inline-annotated word of the cell if any, else the cell itself
(lines 335-338); its table is probed only when `linkShapeOk` accepts it.  The
`try` of lines 341-367 swallows `TypeError` and `AttributeError`, keeping any
assignments already made; other exceptions (such as `KeyError`) escape. -/
def linkBlock (store : Store) (start_elr end_elr : Str) (cell : Str) (s e : PyV) :
    PyV × PyV × Option PyErr :=
  let link_elr := (reSearch patWordInline cell).getD cell
  if linkShapeOk link_elr then
    let res :=
      match getFileEntry store link_elr with
      | .error ex => (s, e, some ex)
      | .ok entry =>
          match resolveTable entry with
          | .error ex => (s, e, some ex)
          | .ok f => linkColScan start_elr end_elr f s e (connCols f)
    match res with
    | (s1, e1, some PyErr.typeError) => (s1, e1, none)
    | (s1, e1, some PyErr.attributeError) => (s1, e1, none)
    | r => r
  else (s, e, none)

/-- Lines 308-372: the start table's row loop for one connection column.  A
cell containing `end_elr` sets `start_conn_mileage` and then either reads an
inline mileage (break), or opens the end table when the cell equals `end_elr`
exactly; any other cell is a link candidate.  Scanning continues until both
mileages are non-`None` or the rows are exhausted. -/
def rowScan (store : Store) (start_elr end_elr : Str) (f : GDF) :
    List (Nat × PyV) → PyV → PyV → Except PyErr (PyV × PyV)
  | [], s, e => .ok (s, e)
  | (i, v) :: rest, s, e => do
      let hit ← cellContains end_elr v
      match v with
      | .vstr sv =>
          if hit then do
            let s1 ← locMileage f i
            if reMatchB patWordInline sv then do
              let e1 ← match reSearch patInlineMileage sv with
                | some t => pure (miles_chains_to_mileage t)
                | none => .error PyErr.attributeError
              .ok (s1, e1)
            else if sv = end_elr then do
              let entry ← getFileEntry store end_elr
              let endF ← resolveTable entry
              let e1 ← endColScan start_elr endF (connCols endF)
              if s1 ≠ .vnone ∧ e1 ≠ .vnone then .ok (s1, e1)
              else rowScan store start_elr end_elr f rest s1 e1
            else
              if s1 ≠ .vnone ∧ e ≠ .vnone then .ok (s1, e)
              else rowScan store start_elr end_elr f rest s1 e
          else
            match linkBlock store start_elr end_elr sv s e with
            | (_, _, some ex) => .error ex
            | (s1, e1, none) =>
                if s1 ≠ .vnone ∧ e1 ≠ .vnone then .ok (s1, e1)
                else rowScan store start_elr end_elr f rest s1 e1
      | _ => .error PyErr.typeError

/-- Lines 306-374: the start table's column loop. -/
def colScan (store : Store) (start_elr end_elr : Str) (f : GDF) :
    List Str → PyV → PyV → Except PyErr (PyV × PyV)
  | [], s, e => .ok (s, e)
  | c :: cs, s, e => do
      let col ← match lookupA c f.cols with
        | none => .error PyErr.keyError
        | some col => pure col
      let (s1, e1) ← rowScan store start_elr end_elr f (dropna col) s e
      if s1 ≠ .vnone ∧ e1 ≠ .vnone then .ok (s1, e1)
      else colScan store start_elr end_elr f cs s1 e1

/-- Lines 376-377: `if start_conn_mileage is None or end_conn_mileage is
None: start_conn_mileage, end_conn_mileage = None, None`. -/
def finalizePair (p : PyV × PyV) : PyV × PyV :=
  if p.1 = .vnone ∨ p.2 = .vnone then (.vnone, .vnone) else p

/-- `get_conn_end_start_mileages` (lines 289-378). -/
def get_conn_end_start_mileages (store : Store) (start_elr end_elr : Str) :
    Except PyErr (PyV × PyV) := do
  let entry ← getFileEntry store start_elr
  let f ← resolveTable entry
  let p ← colScan store start_elr end_elr f (connCols f) .vnone .vnone
  pure (finalizePair p)

/-! ### Concrete instances used by the theorems below -/

/-- The LineRef shape as the spec defines it (§3): an identifier of three
letters optionally followed by a digit. -/
def lineRefShapeSpec (s : Str) : Bool :=
  match s with
  | [a, b, c] => a.isAlpha && b.isAlpha && c.isAlpha
  | [a, b, c, d] => a.isAlpha && b.isAlpha && c.isAlpha && d.isDigit
  | _ => false

/-- A store whose every mileage file is a table with a `Mileage` column and
no connection columns. -/
def nullStore : Store := fun e => some [(e, .rdf ⟨[(str "Mileage", [])]⟩)]

/-- A store in which the start line `AAA` names only the link candidate
`MVL2`, whose own table connects both `AAA` and `BBB`. -/
def mvl2Store : Store := fun e =>
  if e = str "AAA" then
    some [(str "AAA", .rdf ⟨[(str "Mileage", [.vstr (str "0.10")]),
                             (str "Connection1", [.vstr (str "MVL2")])]⟩)]
  else if e = str "MVL2" then
    some [(str "MVL2", .rdf ⟨[(str "Mileage", [.vstr (str "1.00"), .vstr (str "2.00")]),
                              (str "Connection1", [.vstr (str "AAA"), .vstr (str "BBB")])]⟩)]
  else none

/-- A one-row right-hand table for exercising the left join. -/
def oneRowPNC : PNC :=
  ⟨[str "N"], [str "Connection1", str "Connection2"], [[some (str "X"), none]]⟩

/-- A mileage-file mapping with an empty raw table under key `AAA` and a
`Line` entry. -/
def mfW : List (Str × MFVal) :=
  [(str "AAA", .raw (.series true []) []), (str "Line", .txt (some (str "Test")))]

/-- The table `parse_mileage_node_and_connection` produces from the empty raw
table. -/
def emptyParsed : AssembledTable :=
  ⟨[], [], [], [str "Connection1", str "Connection2"], []⟩

/-- `mfW` after `parse_mileage_file` has replaced the `AAA` entry. -/
def mfWout : List (Str × MFVal) :=
  [(str "AAA", .parsed emptyParsed), (str "Line", .txt (some (str "Test")))]

/-- The table `parse_node_and_connection` produces from the one-row column
`["Aaa with Bbb"]`. -/
def pncW : PNC :=
  ⟨[str "Aaa"], [str "Connection1", str "Connection2"], [[some (str "Bbb"), none]]⟩

/-- Does an embedded computation raise? -/
def isErr {α : Type _} : Except PyErr α → Bool
  | .error _ => true
  | .ok _ => false

/-! ### General lemmas about the embedded combinators -/

theorem exBind_ok {α β : Type _} (a : α) (k : α → Except PyErr β) :
    (Except.ok a >>= k) = k a := rfl

theorem exBind_error {α β : Type _} (e : PyErr) (k : α → Except PyErr β) :
    ((Except.error e : Except PyErr α) >>= k) = Except.error e := rfl

theorem exPure_eq {α : Type _} (a : α) : (pure a : Except PyErr α) = Except.ok a := rfl

theorem pySplitGo_ne_nil (sep : Str) :
    ∀ (f : Nat) (s acc : Str), pySplitGo sep f s acc ≠ [] := by
  intro f
  induction f with
  | zero => intro s acc; simp [pySplitGo]
  | succ f ih =>
      intro s acc
      cases s with
      | nil => simp [pySplitGo]
      | cons c cs =>
          simp only [pySplitGo]
          split
          · simp
          · exact ih cs (c :: acc)

theorem pySplit_ne_nil (sep s : Str) : pySplit sep s ≠ [] := by
  unfold pySplit
  split
  · simp
  · exact pySplitGo_ne_nil sep (s.length + 1) s []

theorem splitConnCell_ne_nil (c : Option Str) : splitConnCell c ≠ [] := by
  cases c with
  | none => simp [splitConnCell]
  | some s =>
      simp only [splitConnCell]
      split
      · simp
      · simp [pySplit_ne_nil]

theorem finalizePair_dichotomy (p : PyV × PyV) :
    ((finalizePair p).1 = .vnone ∧ (finalizePair p).2 = .vnone) ∨
      ((finalizePair p).1 ≠ .vnone ∧ (finalizePair p).2 ≠ .vnone) := by
  unfold finalizePair
  by_cases h : p.1 = .vnone ∨ p.2 = .vnone
  · simp [h]
  · push_neg at h
    simp [h.1, h.2]

theorem parse_mileage_scalar_error (v : PyScalar) :
    ∃ er, parse_mileage_scalar v = .error er := by
  cases v <;> exact ⟨_, rfl⟩

theorem parseCells_cons_error (m : PyScalar) (ms : List PyScalar) :
    ∃ er, parseCells (m :: ms) = .error er := by
  obtain ⟨er, he⟩ := parse_mileage_scalar_error m
  refine ⟨er, ?_⟩
  simp only [parseCells]
  rw [he, exBind_error]

theorem classifyAll_ok_length :
    ∀ (l : List PyScalar) (tn : List PyScalar × List Str),
      classifyAll l = .ok tn → tn.1.length = l.length := by
  intro l
  induction l with
  | nil => intro tn h; cases h; rfl
  | cons m ms ih =>
      intro tn h
      simp only [classifyAll] at h
      cases hc : classifyCell m with
      | error e => rw [hc, exBind_error] at h; exact Except.noConfusion h
      | ok vn =>
          rw [hc, exBind_ok] at h
          cases hr : classifyAll ms with
          | error e => rw [hr, exBind_error] at h; exact Except.noConfusion h
          | ok rest =>
              rw [hr, exBind_ok] at h
              cases h
              simp [ih rest hr]

theorem exMapM_ok_length {α β : Type _} (g : α → Except PyErr β) :
    ∀ (l : List α) (r : List β), exMapM g l = .ok r → r.length = l.length := by
  intro l
  induction l with
  | nil => intro r h; cases h; rfl
  | cons x xs ih =>
      intro r h
      simp only [exMapM] at h
      cases hg : g x with
      | error e => rw [hg, exBind_error] at h; exact Except.noConfusion h
      | ok y =>
          rw [hg, exBind_ok] at h
          cases hr : exMapM g xs with
          | error e => rw [hr, exBind_error] at h; exact Except.noConfusion h
          | ok ys =>
              rw [hr, exBind_ok] at h
              cases h
              simp [ih ys hr]

theorem exMapM_ok_mem {α β : Type _} (g : α → Except PyErr β) :
    ∀ (l : List α) (r : List β), exMapM g l = .ok r → ∀ y ∈ r, ∃ x ∈ l, g x = .ok y := by
  intro l
  induction l with
  | nil => intro r h y hy; cases h; cases hy
  | cons x xs ih =>
      intro r h y hy
      simp only [exMapM] at h
      cases hg : g x with
      | error e => rw [hg, exBind_error] at h; exact Except.noConfusion h
      | ok y0 =>
          rw [hg, exBind_ok] at h
          cases hr : exMapM g xs with
          | error e => rw [hr, exBind_error] at h; exact Except.noConfusion h
          | ok ys =>
              rw [hr, exBind_ok] at h
              cases h
              rcases List.mem_cons.mp hy with h1 | h1
              · exact ⟨x, List.mem_cons_self x xs, h1 ▸ hg⟩
              · obtain ⟨x2, hx2, hgx2⟩ := ih ys hr y h1
                exact ⟨x2, List.mem_cons_of_mem x hx2, hgx2⟩

theorem length_le_length_flatten {α : Type _} :
    ∀ (l : List (List α)), (∀ x ∈ l, x ≠ []) → l.length ≤ l.flatten.length := by
  intro l
  induction l with
  | nil => simp
  | cons x t ih =>
      intro hx
      have h1 : 1 ≤ x.length :=
        List.length_pos.mpr (hx x (List.mem_cons_self x t))
      have h2 := ih fun y hy => hx y (List.mem_cons_of_mem x hy)
      simp only [List.flatten_cons, List.length_cons, List.length_append]
      omega

theorem fanoutStep1_ok_ne_nil (x : Option Str) (y : List (Option Str))
    (h : fanoutStep1 x = .ok y) : y ≠ [] := by
  cases x with
  | none => exact Except.noConfusion h
  | some s =>
      simp only [fanoutStep1] at h
      cases h
      simp [pySplit_ne_nil]

theorem fanoutStep2_ok_ne_nil (x : Option Str) (y : List (Option Str))
    (h : fanoutStep2 x = .ok y) : y ≠ [] := by
  cases x with
  | none => exact Except.noConfusion h
  | some s =>
      simp only [fanoutStep2] at h
      cases h
      simp [pySplit_ne_nil]

theorem fanoutRow_ok_length (row r : List (Option Str)) (h : fanoutRow row = .ok r) :
    row.length ≤ r.length := by
  simp only [fanoutRow] at h
  cases h1 : exMapM fanoutStep1 row with
  | error e => rw [h1, exBind_error] at h; exact Except.noConfusion h
  | ok r1 =>
      rw [h1, exBind_ok] at h
      cases h2 : exMapM fanoutStep2 r1.flatten with
      | error e => rw [h2, exBind_error] at h; exact Except.noConfusion h
      | ok r2 =>
          rw [h2, exBind_ok, exPure_eq] at h
          cases h
          have e1 : r1.length = row.length := exMapM_ok_length _ _ _ h1
          have e2 : r2.length = r1.flatten.length := exMapM_ok_length _ _ _ h2
          have ne1 : ∀ x ∈ r1, x ≠ [] := fun x hx => by
            obtain ⟨x0, _, hg⟩ := exMapM_ok_mem _ _ _ h1 x hx
            exact fanoutStep1_ok_ne_nil x0 x hg
          have ne2 : ∀ x ∈ r2, x ≠ [] := fun x hx => by
            obtain ⟨x0, _, hg⟩ := exMapM_ok_mem _ _ _ h2 x hx
            exact fanoutStep2_ok_ne_nil x0 x hg
          calc row.length = r1.length := e1.symm
            _ ≤ r1.flatten.length := length_le_length_flatten r1 ne1
            _ = r2.length := e2.symm
            _ ≤ r2.flatten.length := length_le_length_flatten r2 ne2

theorem get?_set_self {α : Type _} :
    ∀ (l : List α) (i : Nat) (a : α), i < l.length → (l.set i a).get? i = some a := by
  intro l
  induction l with
  | nil => intro i a h; simp at h
  | cons x t ih =>
      intro i a h
      cases i with
      | zero => rfl
      | succ n =>
          simp only [List.set, List.get?]
          exact ih n a (by simpa using h)

theorem get?_set_other {α : Type _} :
    ∀ (l : List α) (i j : Nat) (a : α), i ≠ j → (l.set i a).get? j = l.get? j := by
  intro l
  induction l with
  | nil => intro i j a _; simp
  | cons x t ih =>
      intro i j a hij
      cases i with
      | zero =>
          cases j with
          | zero => exact absurd rfl hij
          | succ m => rfl
      | succ n =>
          cases j with
          | zero => rfl
          | succ m =>
              simp only [List.set, List.get?]
              exact ih n m a (fun he => hij (by rw [he]))

theorem fanoutApply_ok_spec :
    ∀ (idxs : List Nat) (acc r : List (List (Option Str))),
      fanoutApply idxs acc = .ok r →
      r.length = acc.length ∧
        ∀ j a c, acc.get? j = some a → r.get? j = some c → a.length ≤ c.length := by
  intro idxs
  induction idxs with
  | nil =>
      intro acc r h
      cases h
      exact ⟨rfl, fun j a c h1 h2 => by rw [h1] at h2; cases h2; exact le_refl _⟩
  | cons i is ih =>
      intro acc r h
      simp only [fanoutApply] at h
      split at h
      case _ row hg =>
          cases hf : fanoutRow row with
          | error e => rw [hf, exBind_error] at h; exact Except.noConfusion h
          | ok row2 =>
              rw [hf, exBind_ok] at h
              obtain ⟨hlen, hmono⟩ := ih (acc.set i row2) r h
              refine ⟨by rw [hlen, List.length_set], ?_⟩
              intro j a c h1 h2
              by_cases hij : i = j
              · subst hij
                have hlt : i < acc.length := by
                  by_contra hge
                  rw [List.get?_eq_none.mpr (Nat.le_of_not_lt hge)] at hg
                  exact Option.noConfusion hg
                have hset : (acc.set i row2).get? i = some row2 := get?_set_self acc i row2 hlt
                have hrr : a = row := by rw [h1] at hg; exact Option.some.inj hg
                calc a.length = row.length := by rw [hrr]
                  _ ≤ row2.length := fanoutRow_ok_length row row2 hf
                  _ ≤ c.length := hmono i row2 c hset h2
              · have hset : (acc.set i row2).get? j = acc.get? j := get?_set_other acc i j row2 hij
                exact hmono j a c (by rw [hset]; exact h1) h2
      case _ hg => exact Except.noConfusion h

theorem le_maxLenL {α : Type _} (l : List (List α)) (x : List α) (hx : x ∈ l) :
    x.length ≤ maxLenL l := by
  induction l with
  | nil => cases hx
  | cons y t ih =>
      rcases List.mem_cons.mp hx with h1 | h1
      · subst h1; exact Nat.le_max_left _ _
      · exact Nat.le_trans (ih h1) (Nat.le_max_right _ _)

theorem maxLenL_le {α : Type _} (l : List (List α)) (n : Nat)
    (h : ∀ x ∈ l, x.length ≤ n) : maxLenL l ≤ n := by
  induction l with
  | nil => exact Nat.zero_le n
  | cons y t ih =>
      exact Nat.max_le.mpr ⟨h y (List.mem_cons_self y t),
        ih fun x hx => h x (List.mem_cons_of_mem y hx)⟩

theorem allSingleton_len (cl : List (List (Option Str))) (h : allSingleton cl = true) :
    ∀ c ∈ cl, c.length = 1 := by
  intro c hc
  have := List.all_eq_true.mp h c hc
  simpa using this

theorem exists_two_of_not_allSingleton (conns : List (Option Str))
    (h : allSingleton (mk_conn_node_list conns) = false) :
    ∃ j a, (mk_conn_node_list conns).get? j = some a ∧ 2 ≤ a.length := by
  unfold allSingleton at h
  rw [List.all_eq_false] at h
  obtain ⟨c, hc, hne⟩ := h
  have hnnil : c ≠ [] := by
    obtain ⟨x, _, hx⟩ := List.mem_map.mp hc
    rw [← hx]
    exact splitConnCell_ne_nil x
  have h1 : 1 ≤ c.length := List.length_pos.mpr hnnil
  have hne1 : c.length ≠ 1 := by simpa using hne
  obtain ⟨j, hj⟩ := List.get?_of_mem hc
  exact ⟨j, c, hj, by omega⟩

theorem setKey_map_fst (k : Str) (v : MFVal) (mf : List (Str × MFVal)) :
    (setKey k v mf).map Prod.fst = mf.map Prod.fst := by
  induction mf with
  | nil => rfl
  | cons kv t ih =>
      simp only [setKey, List.map_cons] at *
      by_cases h : kv.1 = k <;> simp [h, ih]

theorem lookupKey_setKey_ne (k q : Str) (v : MFVal) (mf : List (Str × MFVal)) (h : q ≠ k) :
    lookupKey q (setKey k v mf) = lookupKey q mf := by
  induction mf with
  | nil => rfl
  | cons kv t ih =>
      simp only [setKey, List.map_cons] at ih ⊢
      by_cases h1 : kv.1 = k
      · rw [if_pos h1]
        have h2 : kv.1 ≠ q := fun he => h (by rw [← he, h1])
        simp only [lookupKey, if_neg h2]
        exact ih
      · rw [if_neg h1]
        simp only [lookupKey]
        by_cases h2 : kv.1 = q
        · rw [if_pos h2, if_pos h2]
        · rw [if_neg h2, if_neg h2]
          exact ih

/-! ### The claims -/

/-- Claim C1: for every query, `get_conn_end_start_mileages` returns a pair
in which either both mileages are non-null or both are null — never a pair
with exactly one `None` component.  (An exception may propagate instead, but
no partially-populated pair is ever returned.) -/
theorem resolver_both_or_neither (store : Store) (a b : Str) (p : PyV × PyV)
    (h : get_conn_end_start_mileages store a b = .ok p) :
    (p.1 = .vnone ∧ p.2 = .vnone) ∨ (p.1 ≠ .vnone ∧ p.2 ≠ .vnone) := by
  unfold get_conn_end_start_mileages at h
  cases h1 : getFileEntry store a with
  | error ex => rw [h1, exBind_error] at h; exact Except.noConfusion h
  | ok entry =>
      rw [h1, exBind_ok] at h
      cases h2 : resolveTable entry with
      | error ex => rw [h2, exBind_error] at h; exact Except.noConfusion h
      | ok f =>
          rw [h2, exBind_ok] at h
          cases h3 : colScan store a b f (connCols f) .vnone .vnone with
          | error ex => rw [h3, exBind_error] at h; exact Except.noConfusion h
          | ok q =>
              rw [h3, exBind_ok, exPure_eq] at h
              cases h
              exact finalizePair_dichotomy q

/-- Witness for C1 at a concrete store with no connection columns. -/
theorem resolver_both_or_neither_witness :
    get_conn_end_start_mileages nullStore (str "AAA") (str "BBB") = .ok (.vnone, .vnone) ∧
      ((PyV.vnone = PyV.vnone ∧ PyV.vnone = PyV.vnone) ∨
        (PyV.vnone ≠ PyV.vnone ∧ PyV.vnone ≠ PyV.vnone)) :=
  ⟨by decide, resolver_both_or_neither nullStore (str "AAA") (str "BBB")
    (.vnone, .vnone) (by decide)⟩

/-- Claim C2 (code bug): the spec's LineRef shape accepts `MVL2`, but the
source regex `[A-Z]{3}(0-9)?$` treats `(0-9)` as a literal group, so the
resolver's guard rejects `MVL2` (while accepting the absurd `MVL0-9`) and the
link table of `MVL2` is never opened: the query below returns `(None, None)`
although the link table names both endpoints. -/
theorem link_shape_guard_rejects_digit_suffix :
    lineRefShapeSpec (str "MVL2") = true ∧
    linkShapeOk (str "MVL2") = false ∧
    linkShapeOk (str "MVL") = true ∧
    linkShapeOk (str "MVL0-9") = true ∧
    get_conn_end_start_mileages mvl2Store (str "AAA") (str "BBB") = .ok (.vnone, .vnone) := by
  refine ⟨by decide, by decide, by decide, by decide, by decide⟩

/-- Claim C3 (code bug): `parse_mileage` classifies `~3.05`, `(8.67)`, null
and `3.05` exactly as the spec's Mileage Field Parser table says (last four
conjuncts), but it never returns those pairs: line 119 re-applies
`parse_mileage` to each scalar cell, which raises `AttributeError` on any
string or float (first four conjuncts), instead of the documented
`(value, classification)` results. -/
theorem parse_mileage_field_examples_raise :
    parse_mileage (.series false [.pyStr (str "~3.05")]) = .error .attributeError ∧
    parse_mileage (.series false [.pyStr (str "(8.67)")]) = .error .attributeError ∧
    parse_mileage (.series false [.pyFloatNan]) = .error .attributeError ∧
    parse_mileage (.series false [.pyStr (str "3.05")]) = .error .attributeError ∧
    classifyAll [.pyStr (str "~3.05")] = .ok ([.pyStr (str "3.05")], [str "Approximate"]) ∧
    classifyAll [.pyStr (str "(8.67)")] = .ok ([.pyStr (str "8.67")], [str "Reference"]) ∧
    classifyAll [.pyFloatNan] = .ok ([.pyFloatNan], [str "Unknown"]) ∧
    classifyAll [.pyStr (str "3.05")] = .ok ([.pyStr (str "3.05")], [str ""]) := by
  refine ⟨by decide, by decide, by decide, by decide, by decide, by decide, by decide, by decide⟩

set_option maxRecDepth 8192 in
/-- Counterexample to claim C4: on the three-element connection list the
output row does not keep the tie-break grouping — `Connection1` is
`"Ashton Moss North Junction"` and `Connection2` is
`"Guide Bridge Junction"`, not the claimed grouped pair. -/
theorem tiebreak_grouping_counterexample :
    (parse_node_and_connection
        [str "Xxx with Ashton Moss North Junction and Guide Bridge Junction and Denton Junction"]).map
        (fun r => r.connRows.map fun row => (row.get? 0, row.get? 1))
      = .ok [(some (some (str "Ashton Moss North Junction")),
              some (some (str "Guide Bridge Junction")))] ∧
    str "Ashton Moss North Junction" ≠ str "Ashton Moss North Junction and Guide Bridge Junction" ∧
    str "Guide Bridge Junction" ≠ str "Denton Junction" := by
  refine ⟨by decide, by decide, by decide⟩

set_option maxRecDepth 8192 in
/-- Claim C4 as amended: the tie-break grouping of lines 154-155 is transient;
the fan-out step (line 165) re-splits each group on `" and "`, so the
three-element connection list is emitted as three separate connection
columns. -/
theorem tiebreak_fanout_resplit :
    parse_node_and_connection
        [str "Xxx with Ashton Moss North Junction and Guide Bridge Junction and Denton Junction"]
      = .ok ⟨[str "Xxx"], [str "Connection1", str "Connection2", str "Connection3"],
             [[some (str "Ashton Moss North Junction"), some (str "Guide Bridge Junction"),
               some (str "Denton Junction")]]⟩ := by decide

/-- Counterexample to claim C5: with a mileage column of 2 rows and a
node/connection table of 1 row, the assembler's join silently emits a 2-row
table whose second row is null-padded — no structural error is raised. -/
theorem assembler_join_counterexample :
    oneRowPNC.connRows.length = 1 ∧ (1 : Nat) ≠ 2 ∧
    pdJoin 2 oneRowPNC = ([some (str "N"), none], [[some (str "X"), none], [none, none]]) := by
  refine ⟨by decide, by decide, by decide⟩

/-- Claim C5 as amended: when the two parsers' row counts disagree, the
assembler raises nothing; the pandas left join fixes the output row count to
the mileage column's and null-pads the node cells of rows the
node/connection table does not have (surplus right rows are dropped, since
only left labels survive). -/
theorem assembler_left_join_pads (n : Nat) (p : PNC) :
    ((pdJoin n p).1.length = n ∧ (pdJoin n p).2.length = n) ∧
    ∀ i, i < n → p.node.length ≤ i → (pdJoin n p).1.get? i = some none := by
  constructor
  · constructor <;> simp [pdJoin]
  · intro i hi hlen
    simp only [pdJoin, List.get?_map]
    rw [List.get?_range hi]
    simp [List.get?_eq_none, hlen]

/-- Witness for the amended C5 at the concrete mismatched pair. -/
theorem assembler_left_join_pads_witness :
    ((1 : Nat) < 2 ∧ oneRowPNC.node.length ≤ 1) ∧
      (pdJoin 2 oneRowPNC).1.get? 1 = some none :=
  ⟨⟨by decide, by decide⟩, (assembler_left_join_pads 2 oneRowPNC).2 1 (by decide) (by decide)⟩

/-- Counterexample to claim C6: a table whose every row has at most one
connection is emitted with two connection columns, not one — line 161 always
adds a null `Connection2`. -/
theorem conn_columns_counterexample :
    connListsFinal [str "Aaa with Bbb"] = .ok [[some (str "Bbb")]] ∧
    maxLenL [[some (str "Bbb")]] = 1 ∧
    (parse_node_and_connection [str "Aaa with Bbb"]).map (fun r => r.connNames.length)
      = .ok 2 ∧ (2 : Nat) ≠ 1 := by
  refine ⟨by decide, by decide, by decide, by decide⟩

/-- Claim C6 as amended: the number of emitted connection columns is the
maximum of 2 and the greatest post-fan-out connection-list length: tables
with a multi-connection row get exactly that maximum (which is then at least
2), while all-singleton tables always get two columns (`Connection2` all
null), never one. -/
theorem conn_columns_count (node : List Str) (r : PNC) (ls : List (List (Option Str)))
    (h : parse_node_and_connection node = .ok r)
    (hls : connListsFinal node = .ok ls) :
    r.connNames.length = Nat.max 2 (maxLenL ls) := by
  simp only [parse_node_and_connection] at h
  simp only [connListsFinal] at hls
  cases h1 : mk_temp_node node with
  | error e => rw [h1, exBind_error] at h; exact Except.noConfusion h
  | ok pairs =>
      rw [h1, exBind_ok] at h hls
      by_cases hs : allSingleton (mk_conn_node_list (pairs.map Prod.snd)) = true
      · rw [if_pos hs, exPure_eq] at h hls
        cases h
        cases hls
        have hle : maxLenL (mk_conn_node_list (pairs.map Prod.snd)) ≤ 1 :=
          maxLenL_le _ 1 fun c hc => le_of_eq (allSingleton_len _ hs c hc)
        have hmax : Nat.max 2 (maxLenL (mk_conn_node_list (pairs.map Prod.snd))) = 2 :=
          Nat.max_eq_left (by omega)
        simp [hmax]
      · rw [if_neg hs] at h hls
        have hs2 : allSingleton (mk_conn_node_list (pairs.map Prod.snd)) = false :=
          Bool.eq_false_iff.mpr hs
        rw [hls, exBind_ok, exPure_eq] at h
        cases h
        obtain ⟨j, a, hja, ha2⟩ := exists_two_of_not_allSingleton (pairs.map Prod.snd) hs2
        obtain ⟨hlen, hmono⟩ := fanoutApply_ok_spec _ _ _ hls
        have hjlt : j < (mk_conn_node_list (pairs.map Prod.snd)).length := by
          by_contra hge
          rw [List.get?_eq_none.mpr (Nat.le_of_not_lt hge)] at hja
          exact Option.noConfusion hja
        have hjlt2 : j < ls.length := by rw [hlen]; exact hjlt
        obtain ⟨c, hc⟩ : ∃ c, ls.get? j = some c := by
          rw [List.get?_eq_get hjlt2]; exact ⟨_, rfl⟩
        have h2c : 2 ≤ c.length := Nat.le_trans ha2 (hmono j a c hja hc)
        have hcm : c ∈ ls := List.get?_mem hc
        have h2m : 2 ≤ maxLenL ls := Nat.le_trans h2c (le_maxLenL ls c hcm)
        simp [Nat.max_eq_right h2m]

/-- Witness for the amended C6 at an all-singleton table, whose maximum
connection-list length is 1 yet which is emitted with 2 columns. -/
theorem conn_columns_count_witness :
    parse_node_and_connection [str "Aaa with Bbb"] = .ok pncW ∧
      connListsFinal [str "Aaa with Bbb"] = .ok [[some (str "Bbb")]] ∧
      pncW.connNames.length = Nat.max 2 (maxLenL [[some (str "Bbb")]]) :=
  ⟨by decide, by decide,
    conn_columns_count [str "Aaa with Bbb"] pncW [[some (str "Bbb")]] (by decide) (by decide)⟩

/-- Claim C7 (code bug): the per-cell recursion of line 119 makes
`parse_mileage` raise on every nonempty column (`AttributeError` via
`.dtype` on a plain scalar, `TypeError` via `len` on a numpy scalar), so the
function is not total on its input as claimed — it returns normally only for
the empty column. -/
theorem parse_mileage_raises_on_nonempty (f64 : Bool) (cells : List PyScalar)
    (hne : cells ≠ []) :
    isErr (parse_mileage (.series f64 cells)) = true := by
  cases cells with
  | nil => exact absurd rfl hne
  | cons m ms =>
      cases f64 with
      | true =>
          obtain ⟨er, he⟩ := parseCells_cons_error m ms
          have hp : parse_mileage (.series true (m :: ms)) = .error er := by
            simp only [parse_mileage, if_true]
            rw [exPure_eq, exBind_ok, he, exBind_error]
          rw [hp]; rfl
      | false =>
          cases hc : classifyAll (m :: ms) with
          | error ex =>
              have hp : parse_mileage (.series false (m :: ms)) = .error ex := by
                simp only [parse_mileage, Bool.false_eq_true, if_false]
                rw [hc, exBind_error]
              rw [hp]; rfl
          | ok tn =>
              have hlen : tn.1.length = (m :: ms).length := classifyAll_ok_length _ _ hc
              cases ht : tn.1 with
              | nil => rw [ht] at hlen; simp at hlen
              | cons v vs =>
                  obtain ⟨er, he⟩ := parseCells_cons_error v vs
                  have hpc : parseCells tn.1 = .error er := by rw [ht]; exact he
                  have hp : parse_mileage (.series false (m :: ms)) = .error er := by
                    simp only [parse_mileage, Bool.false_eq_true, if_false]
                    rw [hc, exBind_ok, hpc, exBind_error]
                  rw [hp]; rfl

/-- Witness for C7 at the one-cell column `["3.05"]`. -/
theorem parse_mileage_raises_on_nonempty_witness :
    ([PyScalar.pyStr (str "3.05")] ≠ []) ∧
      isErr (parse_mileage (.series false [.pyStr (str "3.05")])) = true :=
  ⟨by decide, parse_mileage_raises_on_nonempty false [.pyStr (str "3.05")] (by decide)⟩

/-- Counterexample to claim C8: re-running `preprocess_node` on its own
rewritten single-clause output changes it again — the canonical form
`"Aaa/Bbb with CCC and CCC"` (produced from
`"Aaa with CCC and Bbb with CCC"`) still matches the detection pattern and
collapses to `"Aaa with CCC"`, dropping the second node. -/
theorem preprocess_double_rewrite_counterexample :
    preprocess_node (preprocess_node (str "Aaa with CCC and Bbb with CCC")) ≠
      preprocess_node (str "Aaa with CCC and Bbb with CCC") := by decide

/-- Claim C8 as amended: preprocessing leaves a description unchanged exactly
when it does not match the detection pattern of line 132; already-rewritten
outputs of the form `A/B with X and X` do match it and are rewritten again,
so idempotence fails on them. -/
theorem preprocess_unchanged_when_not_matching (s : Str)
    (h : reMatchB patDetect s = false) : preprocess_node s = s := by
  simp [preprocess_node, h]

/-- Witness for the amended C8 at a plain node description. -/
theorem preprocess_unchanged_when_not_matching_witness :
    reMatchB patDetect (str "Trafford Park Junction") = false ∧
      preprocess_node (str "Trafford Park Junction") = str "Trafford Park Junction" :=
  ⟨by decide, preprocess_unchanged_when_not_matching (str "Trafford Park Junction") (by decide)⟩

/-- Claim C9: every table `parse_node_and_connection` produces is
rectangular — each row's connection-cell count equals the number of declared
connection columns, in the all-singleton branch, the fan-out branch and for
zero-connection rows alike. -/
theorem conn_rows_rectangular (node : List Str) (r : PNC)
    (h : parse_node_and_connection node = .ok r) :
    ∀ row ∈ r.connRows, row.length = r.connNames.length := by
  simp only [parse_node_and_connection] at h
  cases h1 : mk_temp_node node with
  | error e => rw [h1, exBind_error] at h; exact Except.noConfusion h
  | ok pairs =>
      rw [h1, exBind_ok] at h
      by_cases hs : allSingleton (mk_conn_node_list (pairs.map Prod.snd)) = true
      · rw [if_pos hs, exPure_eq] at h
        cases h
        intro row hrow
        obtain ⟨c, hc, hcr⟩ := List.mem_map.mp hrow
        have h1c := allSingleton_len _ hs c hc
        simp [← hcr, h1c]
      · rw [if_neg hs] at h
        cases h2 : fanoutApply (fanoutIdxs (mk_conn_node_list (pairs.map Prod.snd)))
            (mk_conn_node_list (pairs.map Prod.snd)) with
        | error e => rw [h2, exBind_error] at h; exact Except.noConfusion h
        | ok fl =>
            rw [h2, exBind_ok, exPure_eq] at h
            cases h
            intro row hrow
            obtain ⟨c, hc, hcr⟩ := List.mem_map.mp hrow
            have hle : c.length ≤ maxLenL fl := le_maxLenL fl c hc
            simp only [← hcr, List.length_append, List.length_replicate,
              List.length_map, List.length_range]
            omega

/-- Witness for C9 at the one-row table `["Aaa with Bbb"]`. -/
theorem conn_rows_rectangular_witness :
    parse_node_and_connection [str "Aaa with Bbb"] = .ok pncW ∧
      [some (str "Bbb"), none] ∈ pncW.connRows ∧
      ([some (str "Bbb"), none] : List (Option Str)).length = pncW.connNames.length :=
  ⟨by decide, by decide,
    conn_rows_rectangular [str "Aaa with Bbb"] pncW (by decide) _ (by decide)⟩

/-- Claim C10: a successful `parse_mileage_file` call returns the same
mapping with the same keys in the same order, and every entry other than the
one at key `elr` is unchanged. -/
theorem parse_mileage_file_frame (mf : List (Str × MFVal)) (elr : Str)
    (mfo : List (Str × MFVal)) (h : parse_mileage_file mf elr = .ok mfo) :
    mfo.map Prod.fst = mf.map Prod.fst ∧
      ∀ k, k ≠ elr → lookupKey k mfo = lookupKey k mf := by
  simp only [parse_mileage_file] at h
  split at h
  case _ => exact Except.noConfusion h
  case _ d hd =>
      cases h2 : parseEntry d with
      | error e => rw [h2, exBind_error] at h; exact Except.noConfusion h
      | ok nd =>
          rw [h2, exBind_ok, exPure_eq] at h
          cases h
          exact ⟨setKey_map_fst elr nd mf, fun k hk => lookupKey_setKey_ne elr k nd mf hk⟩

/-- Witness for C10 at a two-entry mapping with an empty raw table. -/
theorem parse_mileage_file_frame_witness :
    parse_mileage_file mfW (str "AAA") = .ok mfWout ∧ (str "Line" ≠ str "AAA") ∧
      lookupKey (str "Line") mfWout = lookupKey (str "Line") mfW :=
  ⟨by decide, by decide,
    (parse_mileage_file_frame mfW (str "AAA") mfWout (by decide)).2 (str "Line") (by decide)⟩

end ElrMileages
